import Mathlib

set_option maxRecDepth 40000

/-!
Shallow embedding of `src/mytar.c` (a restricted tar reader).

Modelling conventions:
* Bytes are `Nat` values (0..255); the archive stream is a `List Nat`.
  Reading one 512-byte record with `fread` from a regular file returns
  `min 512 remaining` bytes, i.e. `stream.take 512`.
* A tar header block is its raw 512-byte record.  Struct fields of
  `header_t` are byte slices at the C struct offsets:
  `name` at 0 (100 bytes), `size` at 124 (12 bytes), `typeflag` at 156,
  `magic` at 257 (6 bytes).
* `size_t` arithmetic is `Nat` with explicit `% 2 ^ 64` where the C code
  can wrap.
* C strings are byte lists; the NUL-terminated value starting at a field
  is `takeWhile (· ≠ 0)` of the bytes from that offset on.
-/

/-- ASCII whitespace predicate, as `isspace` in the C locale:
space (32) or 9..13. Used by the `strtoull` model. -/
def isSpaceByte (c : Nat) : Bool :=
  c == 32 || (decide (9 ≤ c) && decide (c ≤ 13))

/-- Octal-digit accumulation loop of `strtoull(s, NULL, 8)`: consume octal
digits, saturating at `ULLONG_MAX = 2 ^ 64 - 1` (the value `strtoull`
returns on overflow); stop at the first non-digit. -/
def octDigits : List Nat → Nat → Nat
  | [], acc => acc
  | c :: cs, acc =>
    if 48 ≤ c ∧ c ≤ 55 then octDigits cs (min (acc * 8 + (c - 48)) (2 ^ 64 - 1))
    else acc

/-- Model of `strtoull(s, NULL, 8)` on a byte list: skip leading
whitespace, accept an optional sign (43 is plus, 45 is minus; a minus
negates the parsed magnitude modulo `2 ^ 64`), then consume octal digits.
No digits at all yields 0, matching `strtoull`'s fallback. -/
def strtoull8 (s : List Nat) : Nat :=
  let s1 := s.dropWhile isSpaceByte
  match s1 with
  | 43 :: rest => octDigits rest 0
  | 45 :: rest => (2 ^ 64 - octDigits rest 0) % 2 ^ 64
  | _ => octDigits s1 0

/-- Equality test of `strncmp(a, b, n) == 0`: compare at most `n` bytes,
stopping early at a NUL that occurs in both strings. The catch-all case
(one list exhausted below `n` with no NUL seen) does not arise for the
fixed-width header fields this model compares. -/
def strncmpEq : List Nat → List Nat → Nat → Bool
  | _, _, 0 => true
  | [], [], _ => true
  | [], _ :: _, _ + 1 => false
  | _ :: _, [], _ + 1 => false
  | a :: as, b :: bs, n + 1 => a == b && (a == 0 || strncmpEq as bs n)

/-- Equality test of `strcmp(a, b) == 0` for byte lists standing for
NUL-terminated strings: the bytes before the first NUL must agree. -/
def strcmpEq (a b : List Nat) : Bool :=
  a.takeWhile (fun c => c != 0) == b.takeWhile (fun c => c != 0)

/-- The bytes of the `TMAGIC` literal `"ustar"` with its terminating NUL:
the six bytes `u s t a r NUL`. -/
def tmagic : List Nat := [117, 115, 116, 97, 114, 0]

/-- The first six bytes of the `TMAGICS` literal `"ustar "`:
`u s t a r SPACE` (the literal's own NUL is byte 7 and is never reached
by `strncmp` with count 6). -/
def tmagicS : List Nat := [117, 115, 116, 97, 114, 32]

/-- The `magic` field of a raw header block: 6 bytes at offset 257. -/
def magicField (chunk : List Nat) : List Nat := (chunk.drop 257).take 6

/-- The `typeflag` field of a raw header block: the byte at offset 156. -/
def typeflagField (chunk : List Nat) : Nat := chunk.getD 156 0

/-- The NUL-terminated C string starting at the `name` field (offset 0)
of a raw header block, as read by `strcmp` and `fopen` in the C code.
(The C code does not clamp it to the 100-byte field: a name filling the
field runs on into the following bytes of the same block.) -/
def cstrName (chunk : List Nat) : List Nat :=
  chunk.takeWhile (fun c => c != 0)

/-- The listing line `printf("%.*s\n", 100, header->name)` emits for a
header block: the name bytes, cut at the field width 100 and at the first
NUL, whichever comes first. -/
def listLine (chunk : List Nat) : List Nat :=
  (chunk.take 100).takeWhile (fun c => c != 0)

/-- `header_is_magic_valid`: `strncmp` of the magic field against
`TMAGIC` or `TMAGICS` with count `sizeof(header->magic) = 6`. -/
def header_is_magic_valid (chunk : List Nat) : Bool :=
  strncmpEq (magicField chunk) tmagic 6 || strncmpEq (magicField chunk) tmagicS 6

/-- `header_is_regular_file`: the typeflag is `REGTYPE` (48, the ASCII
digit zero) or `AREGTYPE` (the NUL byte 0). -/
def header_is_regular_file (chunk : List Nat) : Bool :=
  typeflagField chunk == 48 || typeflagField chunk == 0

/-- `header_check_valid`: 2 on invalid magic, else 2 on a non-regular
typeflag, else 0. -/
def header_check_valid (chunk : List Nat) : Nat :=
  if !(header_is_magic_valid chunk) then 2
  else if !(header_is_regular_file chunk) then 2
  else 0

/-- `header_is_null`: every one of the 512 bytes of the block is zero. -/
def header_is_null (chunk : List Nat) : Bool :=
  chunk.all (fun c => c == 0)

/-- `header_get_size`: `strtoull(header->size, NULL, 8)`. `strtoull`
starts at the `size` field (offset 124) and is not bounded by the
12-byte field width, so the model passes the whole tail of the block. -/
def header_get_size (chunk : List Nat) : Nat :=
  strtoull8 (chunk.drop 124)

/-- `size_to_record_count`: `(x + RECORD_SIZE - 1) / RECORD_SIZE` in
`size_t` arithmetic, so the addition wraps modulo `2 ^ 64`. -/
def size_to_record_count (x : Nat) : Nat :=
  ((x + 512 - 1) % 2 ^ 64) / 512

/-- The command-line configuration the scan loop of `main` receives:
mode flags `-t`, `-x`, `-v` and the free arguments (requested entry
names as NUL-free byte lists in insertion order). -/
structure Options where
  t : Bool
  x : Bool
  v : Bool
  freeArgs : List (List Nat)
deriving DecidableEq, Repr

/-- `options_find_free_argument`: linear scan of the free arguments in
lockstep with the parallel found-marks array; the first unmarked
argument that compares `strcmp`-equal to `str` is marked and the scan
reports true. The mismatched-length case (second equation) is
unreachable: `make_files_found` always allocates one mark per argument. -/
def options_find_free_argument :
    List (List Nat) → List Nat → List Bool → Bool × List Bool
  | [], _, found => (false, found)
  | _ :: _, _, [] => (false, [])
  | a :: as, str, f :: fs =>
    if !f && strcmpEq a str then (true, true :: fs)
    else
      let r := options_find_free_argument as str fs
      (r.1, f :: r.2)

/-- `make_files_found`: one `false` mark per free argument. -/
def make_files_found (n : Nat) : List Bool := List.replicate n false

/-- `check_files`: walk the free arguments and their found-marks in
lockstep; report every name whose mark is still false, in insertion
order, and yield exit code 2 when at least one was reported, else 0. -/
def check_files : List (List Nat) → List Bool → List (List Nat) × Nat
  | [], _ => ([], 0)
  | _ :: _, [] => ([], 0)
  | a :: as, f :: fs =>
    let r := check_files as fs
    if !f then (a :: r.1, 2) else r

/-- `check_file_filter`: an entry is selected when there are no free
arguments (select-all) or `options_find_free_argument` marks one; a
selected entry's listing line is printed in `-t` mode or in `-x -v`
mode. Returns (selected, updated found-marks, listing lines printed). -/
def check_file_filter (opts : Options) (chunk : List Nat) (found : List Bool) :
    Bool × List Bool × List (List Nat) :=
  let probe :=
    if opts.freeArgs.isEmpty then (true, found)
    else options_find_free_argument opts.freeArgs (cstrName chunk) found
  if probe.1 then
    (true, probe.2,
      if opts.t || (opts.x && opts.v) then [listLine chunk] else [])
  else (false, probe.2, [])

/-- Result of the payload loop of `main` (lines 467-502): the bytes
written to the open output file, the archive stream left after the loop,
the `return_code` the loop set (0 or 2), and how many times
`block_index` was incremented. -/
structure PayloadResult where
  written : List Nat
  rest : List Nat
  code : Nat
  blocks : Nat
deriving DecidableEq, Repr

/-- The payload loop of `main`: for each of `rc` records, `fread` one
512-byte record; with an open sink, `fwrite` `read` bytes on a short
read, else the full record when `512 ≤ size`, else `size` bytes;
decrement `size` by the bytes read (`size_t` arithmetic); a short read
sets `return_code = 2` and leaves the loop without counting the block. -/
def payloadLoop : Nat → List Nat → Nat → Bool → PayloadResult
  | 0, stream, _, _ => ⟨[], stream, 0, 0⟩
  | i + 1, stream, size, sinkOpen =>
    let chunk := stream.take 512
    let readN := chunk.length
    let written :=
      if sinkOpen then
        chunk.take (if readN < 512 then readN else if 512 ≤ size then 512 else size)
      else []
    let size' := (size + 2 ^ 64 - readN) % 2 ^ 64
    if readN != 512 then ⟨written, stream.drop 512, 2, 0⟩
    else
      let p := payloadLoop i (stream.drop 512) size' sinkOpen
      ⟨written ++ p.written, p.rest, p.code, p.blocks + 1⟩

/-- Observable outcome of the scan loop of `main` from a given scan
state on: the `return_code` the loop leaves with, the lone-zero-block
diagnostic (with the block index it names) if one is printed at end of
stream, the listing lines printed from here on, the extracted files
(name, bytes written) from here on, and the final found-marks. -/
structure ScanOutcome where
  returnCode : Nat
  loneZero : Option Nat
  listed : List (List Nat)
  extracted : List (List Nat × List Nat)
  filesFound : List Bool
deriving DecidableEq, Repr

/-- The scan loop of `main` (lines 411-512), fuel-indexed to make the
recursion structural. One unit of fuel is spent per loop iteration; each
iteration either stops or consumes at least 512 stream bytes, so
`stream.length + 1` fuel (as `runScan` passes) never runs out. Per
iteration: `read_header` classifies the 512-byte read as EOF (0 bytes;
print the lone-zero diagnostic when `was_null_block` and leave with
code 0), partial (code 2), or full; a full block bumps `block_index`;
an all-zero block either ends the archive cleanly when `was_null_block`
is already set or sets it and continues (the C code never clears it
again); otherwise `header_check_valid` may abort with its code, the
filter selects and lists the entry, extraction opens a sink (failure:
code 9), and the payload loop consumes `size_to_record_count` records
before the next iteration. -/
def scanLoop (opts : Options) (openOk : List Nat → Bool) :
    Nat → List Nat → Nat → Bool → List Bool → ScanOutcome
  | 0, _, _, _, found => ⟨0, none, [], [], found⟩
  | fuel + 1, stream, blockIndex, wasNull, found =>
    let chunk := stream.take 512
    if chunk.length == 0 then
      ⟨0, if wasNull then some blockIndex else none, [], [], found⟩
    else if chunk.length != 512 then
      ⟨2, none, [], [], found⟩
    else
      let blockIndex' := blockIndex + 1
      let rest := stream.drop 512
      if header_is_null chunk then
        if wasNull then ⟨0, none, [], [], found⟩
        else scanLoop opts openOk fuel rest blockIndex' true found
      else if header_check_valid chunk != 0 then
        ⟨header_check_valid chunk, none, [], [], found⟩
      else
        let fr := check_file_filter opts chunk found
        if fr.1 && opts.x && !(openOk (cstrName chunk)) then
          ⟨9, none, fr.2.2, [], fr.2.1⟩
        else
          let sinkOpen := fr.1 && opts.x
          let sz := header_get_size chunk
          let p := payloadLoop (size_to_record_count sz) rest sz sinkOpen
          let extractedHere :=
            if sinkOpen then [(cstrName chunk, p.written)] else []
          if p.code != 0 then
            ⟨2, none, fr.2.2, extractedHere, fr.2.1⟩
          else
            let out := scanLoop opts openOk fuel p.rest (blockIndex' + p.blocks)
              wasNull fr.2.1
            ⟨out.returnCode, out.loneZero, fr.2.2 ++ out.listed,
              extractedHere ++ out.extracted, out.filesFound⟩

/-- The scan loop started from `main`'s initial state: block index 0,
`was_null_block` false, one `false` found-mark per free argument. -/
def scanOut (opts : Options) (openOk : List Nat → Bool) (stream : List Nat) :
    ScanOutcome :=
  scanLoop opts openOk (stream.length + 1) stream 0 false
    (make_files_found opts.freeArgs.length)

/-- Observable outcome of a whole run of `main` after option parsing:
the process exit code and everything printed or written. `notFound` is
the list of names `check_files` reported as not found in the archive. -/
structure RunOutcome where
  returnCode : Nat
  loneZero : Option Nat
  listed : List (List Nat)
  extracted : List (List Nat × List Nat)
  notFound : List (List Nat)
deriving DecidableEq, Repr

/-- `main` after the scan loop: in `-t` mode with free arguments present
the exit code is overwritten with the result of `check_files`
(lines 514-515); otherwise the loop's `return_code` is returned as is. -/
def runScan (opts : Options) (openOk : List Nat → Bool) (stream : List Nat) :
    RunOutcome :=
  let s := scanOut opts openOk stream
  if opts.t && !opts.freeArgs.isEmpty then
    let cf := check_files opts.freeArgs s.filesFound
    ⟨cf.2, s.loneZero, s.listed, s.extracted, cf.1⟩
  else ⟨s.returnCode, s.loneZero, s.listed, s.extracted, []⟩

/-- A null block: one all-zero 512-byte record. -/
def zb : List Nat := List.replicate 512 0

/-- A minimal well-formed header block: a one-byte name `c`, an all-zero
size field (parses as 0), typeflag `AREGTYPE` (0), magic `ustar NUL`. -/
def hdrBlock (c : Nat) : List Nat :=
  c :: (List.replicate 256 0 ++ (tmagic ++ List.replicate 249 0))

/-- A non-null block whose magic field is invalid (all zero). -/
def badHdr : List Nat := 99 :: List.replicate 511 0

/-- A sink-open oracle under which every `fopen(name, "wb")` succeeds. -/
def okAll : List Nat → Bool := fun _ => true

/-- Options of a run `mytar -t -f archive` with no requested names. -/
def optsC1 : Options := ⟨true, false, false, []⟩

/-- Archive: zero record, header `a` (size 0), zero record, header `b`
(size 0), then the regular two-record terminator. -/
def streamC1 : List Nat :=
  zb ++ (hdrBlock 97 ++ (zb ++ (hdrBlock 98 ++ (zb ++ zb))))

/-- Archive: one zero record, then header `a` (size 0), then end of
stream. -/
def streamC1b : List Nat := zb ++ hdrBlock 97

/-- Options of a run `mytar -t -f archive a`. -/
def optsC2 : Options := ⟨true, false, false, [[97]]⟩

/-- Archive: header `a` (size 0) followed by a 100-byte partial record
(a truncated archive). -/
def streamC2 : List Nat := hdrBlock 97 ++ List.replicate 100 7
/-- Options of a run `mytar -t -f archive a b`. -/
def optsC7 : Options := ⟨true, false, false, [[97], [98]]⟩

/-- Archive: header `a` (size 0), then a single zero record and end of
stream — a structurally clean scan in which `b` never appears. -/
def streamC7 : List Nat := hdrBlock 97 ++ zb



/-- One scan-loop iteration on a full all-zero block when the previous
block was not a zero block: `was_null_block` is set and the loop goes
on. -/
theorem scanLoop_null_first (opts : Options) (openOk : List Nat → Bool)
    (fuel : Nat) (b rest : List Nat) (bi : Nat) (found : List Bool)
    (hb : b.length = 512) (hnull : header_is_null b = true) :
    scanLoop opts openOk (fuel + 1) (b ++ rest) bi false found =
      scanLoop opts openOk fuel rest (bi + 1) true found := by
  have ht : (b ++ rest).take 512 = b := List.take_left' hb
  have hd : (b ++ rest).drop 512 = rest := List.drop_left' hb
  simp [scanLoop, ht, hd, hb, hnull]

/-- One scan-loop iteration on a full all-zero block when the previous
block was already a zero block: the archive ends cleanly. -/
theorem scanLoop_null_second (opts : Options) (openOk : List Nat → Bool)
    (fuel : Nat) (b rest : List Nat) (bi : Nat) (found : List Bool)
    (hb : b.length = 512) (hnull : header_is_null b = true) :
    scanLoop opts openOk (fuel + 1) (b ++ rest) bi true found =
      ⟨0, none, [], [], found⟩ := by
  have ht : (b ++ rest).take 512 = b := List.take_left' hb
  simp [scanLoop, ht, hb, hnull]

/-- One scan-loop iteration on a valid zero-size header block outside
extraction mode: the filter runs, its listing lines are emitted, no
payload record is consumed, and `was_null_block` is passed on
unchanged. -/
theorem scanLoop_entry_step (opts : Options) (openOk : List Nat → Bool)
    (fuel : Nat) (b rest : List Nat) (bi : Nat) (wasNull : Bool)
    (found found' : List Bool) (sel : Bool) (lines : List (List Nat))
    (hb : b.length = 512) (hnull : header_is_null b = false)
    (hvalid : header_check_valid b = 0) (hsize : header_get_size b = 0)
    (hx : opts.x = false)
    (hcff : check_file_filter opts b found = (sel, found', lines)) :
    scanLoop opts openOk (fuel + 1) (b ++ rest) bi wasNull found =
      ⟨(scanLoop opts openOk fuel rest (bi + 1) wasNull found').returnCode,
        (scanLoop opts openOk fuel rest (bi + 1) wasNull found').loneZero,
        lines ++ (scanLoop opts openOk fuel rest (bi + 1) wasNull found').listed,
        (scanLoop opts openOk fuel rest (bi + 1) wasNull found').extracted,
        (scanLoop opts openOk fuel rest (bi + 1) wasNull found').filesFound⟩ := by
  have ht : (b ++ rest).take 512 = b := List.take_left' hb
  have hd : (b ++ rest).drop 512 = rest := List.drop_left' hb
  simp [scanLoop, ht, hd, hb, hnull, hvalid, hsize, hcff, hx,
    size_to_record_count, payloadLoop]

/-- C1: the claim that reading a full non-zero block resets the
saw-one-zero-block state fails on the code: `was_null_block` is set at
the first lone zero record and never cleared again, contradicting its
own comment (`If the last read block was a null block`). On `streamC1`
the scan stops at the third record — a single zero record following the
header of `a` — as if it were the second record of a terminator pair, so
entry `b` is never listed; on `streamC1b` the lone-zero-block diagnostic
is printed at end of stream although the last block read was a non-zero
header. -/
theorem c1_lone_zero_state_never_reset :
    runScan optsC1 okAll streamC1 = ⟨0, none, [[97]], [], []⟩ ∧
    runScan optsC1 okAll streamC1b = ⟨0, some 2, [[97]], [], []⟩ := by
  constructor
  · have hmain0 :
        scanLoop optsC1 okAll (streamC1.length + 1) streamC1 0 false [] =
          ⟨0, none, [[97]], [], []⟩ := by
      have hlen : streamC1.length = 3072 := by
        simp only [streamC1, zb, hdrBlock, tmagic, List.length_append,
          List.length_cons, List.length_replicate, List.length_nil]
      rw [hlen]
      simp only [streamC1]
      rw [scanLoop_null_first optsC1 okAll 3072 zb
        (hdrBlock 97 ++ (zb ++ (hdrBlock 98 ++ (zb ++ zb)))) 0 []
        (by decide) (by decide)]
      rw [(by norm_num : (3072 : Nat) = 3071 + 1)]
      rw [scanLoop_entry_step optsC1 okAll 3071 (hdrBlock 97)
        (zb ++ (hdrBlock 98 ++ (zb ++ zb))) 1 true [] [] true [[97]]
        (by decide) (by decide) (by decide) (by decide) rfl (by decide)]
      rw [(by norm_num : (3071 : Nat) = 3070 + 1)]
      rw [scanLoop_null_second optsC1 okAll 3070 zb (hdrBlock 98 ++ (zb ++ zb))
        (0 + 1 + 1) [] (by decide) (by decide)]
      rfl
    have hmain :
        scanLoop optsC1 okAll (streamC1.length + 1) streamC1 0 false
          (make_files_found optsC1.freeArgs.length) =
          ⟨0, none, [[97]], [], []⟩ := hmain0
    simp only [runScan, scanOut]
    rw [hmain]
    rfl
  · decide

/-- C2: the claim that every fatal scan abort yields a non-zero outcome
fails on the code: on `streamC2` (header `a`, then a truncated record)
under `mytar -t -f archive a`, the scan loop aborts with the truncation
code 2, but `main` then overwrites `return_code` with the result of
`check_files`, which is 0 because `a` was already matched — the process
exits with 0 (success). -/
theorem c2_fatal_code_overwritten :
    (scanLoop optsC2 okAll (streamC2.length + 1) streamC2 0 false
        [false]).returnCode = 2 ∧
    runScan optsC2 okAll streamC2 = ⟨0, none, [[97]], [], []⟩ := by
  decide

/-- C3: from any scanner state, a full non-terminator block that fails
magic validation, or whose typeflag is not a regular file, halts the
whole scan at that point with code 2: nothing at or after that block is
listed or extracted, and the found-marks are left as they were. -/
theorem c3_invalid_header_halts (opts : Options) (openOk : List Nat → Bool)
    (fuel : Nat) (stream : List Nat) (bi : Nat) (wasNull : Bool)
    (found : List Bool)
    (hfull : 512 ≤ stream.length)
    (hnz : header_is_null (stream.take 512) = false)
    (hbad : header_is_magic_valid (stream.take 512) = false ∨
      header_is_regular_file (stream.take 512) = false) :
    scanLoop opts openOk (fuel + 1) stream bi wasNull found =
      ⟨2, none, [], [], found⟩ := by
  have hcl : (stream.take 512).length = 512 := by
    rw [List.length_take]; omega
  have hcv : header_check_valid (stream.take 512) = 2 := by
    rcases hbad with h | h
    · simp [header_check_valid, h]
    · cases hm : header_is_magic_valid (stream.take 512) <;>
        simp [header_check_valid, h, hm]
  simp [scanLoop, hcl, hnz, hcv]

/-- Witness for C3: a bad-magic block followed by a well-formed header
for `b` halts the scan immediately with code 2; the valid entry behind
it is never listed. -/
theorem c3_witness :
    scanLoop ⟨true, false, false, []⟩ okAll (8 + 1) (badHdr ++ hdrBlock 98)
      0 false [] = ⟨2, none, [], [], []⟩ :=
  c3_invalid_header_halts ⟨true, false, false, []⟩ okAll 8
    (badHdr ++ hdrBlock 98) 0 false [] (by decide) (by decide)
    (Or.inl (by decide))

/-- C6 counterexample: with the requested names `a, a` (a duplicate in
the FilterSet), a second archive entry named `a` is selected again:
`options_find_free_argument` returns true a second time and flips the
second found-mark, contrary to the claim that a later entry with an
already-matched name returns false and changes no mark. -/
theorem c6_counterexample :
    options_find_free_argument [[97], [97]] [97] [false, false] =
        (true, [true, false]) ∧
    options_find_free_argument [[97], [97]] [97] [true, false] =
        (true, [true, true]) := by
  decide

/-- C8: a stream of exactly one all-zero record followed by end of
stream terminates cleanly with exit code 0 in every mode (the FilterSet
being empty, `check_files` never runs) and prints the lone-zero-block
diagnostic naming block index 1. -/
theorem c8_single_zero_block (t x v : Bool) (openOk : List Nat → Bool) :
    runScan ⟨t, x, v, []⟩ openOk zb = ⟨0, some 1, [], [], []⟩ := by
  cases t <;> rfl

/-- C9 counterexample: over the full `size_t` domain the record-count
function is not `ceil(s / 512)`: at `s = 2 ^ 64 - 1` the addition of
511 wraps and `size_to_record_count` returns 0, while `ceil(s / 512)`
is `(s + 511) / 512 ≠ 0`. -/
theorem c9_counterexample :
    size_to_record_count (2 ^ 64 - 1) = 0 ∧
    (2 ^ 64 - 1 + 511) / 512 ≠ 0 := by
  decide

/-- C9 as amended: on every size whose rounding sum stays below
`2 ^ 64` (in particular on every size expressible in the 12-byte octal
field), `size_to_record_count` is exactly the ceiling of `s / 512`
— the least `rc` with `s ≤ 512 * rc` — and it is 0 at `s = 0`. -/
theorem c9_record_count (s : Nat) (h : s + 511 < 2 ^ 64) :
    size_to_record_count s = (s + 511) / 512 ∧
    s ≤ 512 * size_to_record_count s ∧
    512 * size_to_record_count s < s + 512 ∧
    size_to_record_count 0 = 0 := by
  have e64 : (2 : Nat) ^ 64 = 18446744073709551616 := by norm_num
  rw [e64] at h
  have hmod : (s + 512 - 1) % 18446744073709551616 = s + 511 :=
    Nat.mod_eq_of_lt (by omega)
  have hdm := Nat.div_add_mod (s + 511) 512
  have hr : (s + 511) % 512 < 512 := Nat.mod_lt _ (by norm_num)
  refine ⟨by simp only [size_to_record_count, e64, hmod], ?_, ?_,
    by simp only [size_to_record_count]; norm_num⟩
  · simp only [size_to_record_count, e64, hmod]; omega
  · simp only [size_to_record_count, e64, hmod]; omega

/-- Witness for C9 at size 530: two records. -/
theorem c9_witness :
    size_to_record_count 530 = (530 + 511) / 512 ∧
    530 ≤ 512 * size_to_record_count 530 ∧
    512 * size_to_record_count 530 < 530 + 512 ∧
    size_to_record_count 0 = 0 :=
  c9_record_count 530 (by norm_num)

/-- C4 counterexample: an entry whose declared size parses to
`2 ^ 64 - 1` (the 22 octal digits `1 7...7`, which `strtoull` can read
because it runs past the 12-byte size field into the adjacent fields)
makes the scanner consume `size_to_record_count (2 ^ 64 - 1) = 0`
payload records and write 0 bytes, not `ceil(s / 512) = 2 ^ 55` records
and `s` bytes as the claim states for every entry. -/
theorem c4_counterexample :
    size_to_record_count (2 ^ 64 - 1) = 0 ∧
    payloadLoop (size_to_record_count (2 ^ 64 - 1)) (List.replicate 1024 3)
        (2 ^ 64 - 1) true = ⟨[], List.replicate 1024 3, 0, 0⟩ ∧
    (2 ^ 64 - 1 + 511) / 512 = 2 ^ 55 ∧
    strtoull8 (49 :: List.replicate 21 55) = 2 ^ 64 - 1 := by
  decide

/-- Splitting a take at a 512-byte record boundary. -/
theorem take_split_512 (s : Nat) (stream : List Nat) (hbig : 512 ≤ s) :
    stream.take s = stream.take 512 ++ (stream.drop 512).take (s - 512) := by
  rw [← List.take_add]
  congr 1
  omega

/-- Collapsing two drops at 512-byte record boundaries. -/
theorem drop_split_512 (n : Nat) (stream : List Nat) :
    (stream.drop 512).drop (512 * n) = stream.drop (512 * (n + 1)) := by
  rw [List.drop_drop]
  congr 1
  omega

/-- The payload loop on a stream holding all its records in full: when
`rc` is the ceiling of `s / 512` (expressed by the two bounds), the loop
consumes exactly `rc` records (`512 * rc` bytes) with code 0; with an
open sink it writes exactly the first `s` bytes — the padding of the
final record is never written — and with no sink it writes nothing. -/
theorem payloadLoop_eq (rc : Nat) :
    ∀ (s : Nat) (stream : List Nat) (sink : Bool),
    s < 2 ^ 64 → s ≤ 512 * rc → 512 * rc < s + 512 →
    512 * rc ≤ stream.length →
    payloadLoop rc stream s sink =
      ⟨if sink then stream.take s else [], stream.drop (512 * rc), 0, rc⟩ := by
  induction rc with
  | zero =>
    intro s stream sink h64 hle hlt hlen
    have hs : s = 0 := by omega
    subst hs
    cases sink <;> simp [payloadLoop]
  | succ n ih =>
    intro s stream sink h64 hle hlt hlen
    have hcl : (stream.take 512).length = 512 := by
      rw [List.length_take]; omega
    have hlb : 512 * n < s := by omega
    have e64 : (2 : Nat) ^ 64 = 18446744073709551616 := by norm_num
    by_cases hbig : 512 ≤ s
    · have hsz : (s + 2 ^ 64 - 512) % 2 ^ 64 = s - 512 := by
        rw [e64]; rw [e64] at h64; omega
      have hrec := ih (s - 512) (stream.drop 512) sink (by omega) (by omega)
        (by omega) (by rw [List.length_drop]; omega)
      have hsplit := take_split_512 s stream hbig
      have hdrop := drop_split_512 n stream
      simp only [payloadLoop, hcl, hsz, hrec, hdrop]
      cases sink <;> simp [hbig, hsplit, List.take_take]
    · have hn0 : n = 0 := by omega
      subst hn0
      have hsmall : s < 512 := by omega
      simp only [payloadLoop, hcl]
      cases sink <;> simp [payloadLoop, hbig, List.take_take,
        Nat.min_eq_left (Nat.le_of_lt hsmall)]

/-- C4 as amended: for every entry whose declared size `s` keeps
`s + 511` below `2 ^ 64`, the scanner consumes exactly
`ceil(s / 512) = (s + 511) / 512` payload records before the next
header, selected or not; with an open sink exactly the first `s` bytes
of the payload are written (the final record contributes only
`min(remaining, 512)` bytes, never the zero padding), and with no sink
nothing is written while the records are still consumed. -/
theorem c4_payload_exact (s : Nat) (stream : List Nat) (sink : Bool)
    (hs : s + 511 < 2 ^ 64)
    (hlen : 512 * size_to_record_count s ≤ stream.length) :
    size_to_record_count s = (s + 511) / 512 ∧
    payloadLoop (size_to_record_count s) stream s sink =
      ⟨if sink then stream.take s else [],
        stream.drop (512 * size_to_record_count s), 0,
        size_to_record_count s⟩ ∧
    (if sink then stream.take s else []).length = if sink then s else 0 := by
  have e64 : (2 : Nat) ^ 64 = 18446744073709551616 := by norm_num
  rw [e64] at hs
  have hmod : (s + 512 - 1) % 2 ^ 64 = s + 511 := by
    rw [e64]; exact Nat.mod_eq_of_lt (by omega)
  have h1 : size_to_record_count s = (s + 511) / 512 := by
    simp only [size_to_record_count, hmod]
  have hdm := Nat.div_add_mod (s + 511) 512
  have hr : (s + 511) % 512 < 512 := Nat.mod_lt _ (by norm_num)
  have hb1 : s ≤ 512 * size_to_record_count s := by rw [h1]; omega
  have hb2 : 512 * size_to_record_count s < s + 512 := by rw [h1]; omega
  have hp := payloadLoop_eq (size_to_record_count s) s stream sink
    (by rw [e64]; omega) hb1 hb2 hlen
  refine ⟨h1, hp, ?_⟩
  cases sink
  · simp
  · simp only [if_pos]
    rw [List.length_take]
    omega

/-- Witness for C4 at the spec's own example: an entry of declared size
530 consumes exactly 2 payload records and writes exactly the 530
payload bytes, not the 494 padding bytes of the second record. -/
theorem c4_witness :
    payloadLoop 2 (List.replicate 1024 3) 530 true =
      ⟨List.replicate 530 3, [], 0, 2⟩ :=
  (c4_payload_exact 530 (List.replicate 1024 3) true (by norm_num)
    (by decide)).2.1

/-- C10: during extraction, a payload record read that returns `n` bytes
with `0 < n < 512` has all `n` bytes written to the open sink before the
loop aborts with the truncation code — the write count is not clamped to
the entry's remaining declared size `s`, which is arbitrary here (the
witness instantiates `s = 1` with a 300-byte record). -/
theorem c10_truncated_record_written (s rc : Nat) (stream : List Nat)
    (h1 : 0 < stream.length) (h2 : stream.length < 512) :
    payloadLoop (rc + 1) stream s true = ⟨stream, [], 2, 0⟩ := by
  have ht : stream.take 512 = stream := List.take_of_length_le (by omega)
  have hd : stream.drop 512 = [] := List.drop_eq_nil_iff.mpr (by omega)
  have hne : stream.length ≠ 512 := by omega
  simp only [payloadLoop, ht, hd]
  simp [hne, h2]

/-- Witness for C10: a 300-byte truncated record of an entry with one
byte of declared size remaining: all 300 bytes are written. -/
theorem c10_witness :
    payloadLoop 1 (List.replicate 300 7) 1 true =
      ⟨List.replicate 300 7, [], 2, 0⟩ :=
  c10_truncated_record_written 1 0 (List.replicate 300 7) (by decide)
    (by decide)
/-- For a 6-byte field, `strncmp`-equality against either magic
literal coincides with plain byte-list equality: `TMAGIC` has its NUL
at the last compared position and `TMAGICS` has no NUL among its six
bytes, so the early-NUL stop of `strncmp` never hides a difference. -/
theorem strncmpEq_magic_iff (m : List Nat) (hm : m.length = 6) :
    (strncmpEq m tmagic 6 = true ↔ m = tmagic) ∧
    (strncmpEq m tmagicS 6 = true ↔ m = tmagicS) := by
  match m, hm with
  | [a, b, c, d, e, f], _ =>
    have h1 : strncmpEq [a, b, c, d, e, f] tmagic 6 =
        (a == 117 && (a == 0 || (b == 115 && (b == 0 ||
          (c == 116 && (c == 0 || (d == 97 && (d == 0 ||
          (e == 114 && (e == 0 || (f == 0 && (f == 0 || true)))))))))))) := rfl
    have h2 : strncmpEq [a, b, c, d, e, f] tmagicS 6 =
        (a == 117 && (a == 0 || (b == 115 && (b == 0 ||
          (c == 116 && (c == 0 || (d == 97 && (d == 0 ||
          (e == 114 && (e == 0 || (f == 32 && (f == 0 || true)))))))))))) := rfl
    rw [h1, h2, tmagic, tmagicS]
    simp only [Bool.or_true, Bool.and_true, Bool.and_eq_true,
      Bool.or_eq_true, beq_iff_eq, List.cons.injEq, and_true]
    omega

/-- C5: `header_is_magic_valid` holds exactly when the 6-byte magic
field is `u s t a r NUL` or `u s t a r SPACE`; every other 6-byte value
is rejected. -/
theorem c5_magic_valid_iff (chunk : List Nat) (h : chunk.length = 512) :
    header_is_magic_valid chunk = true ↔
      magicField chunk = tmagic ∨ magicField chunk = tmagicS := by
  have hm : (magicField chunk).length = 6 := by
    simp only [magicField, List.length_take, List.length_drop, h]
    norm_num
  have hiff := strncmpEq_magic_iff (magicField chunk) hm
  simp only [header_is_magic_valid, Bool.or_eq_true, hiff.1, hiff.2]

/-- Witness for C5 on a concrete well-formed header block. -/
theorem c5_witness :
    header_is_magic_valid (hdrBlock 97) = true ↔
      magicField (hdrBlock 97) = tmagic ∨ magicField (hdrBlock 97) = tmagicS :=
  c5_magic_valid_iff (hdrBlock 97) (by decide)
/-- `options_find_free_argument` preserves the length of the found-marks
array. -/
theorem find_len_eq (args : List (List Nat)) (name : List Nat) :
    ∀ found : List Bool,
    (options_find_free_argument args name found).2.length = found.length := by
  induction args with
  | nil => intro found; rfl
  | cons a as ih =>
    intro found
    cases found with
    | nil => rfl
    | cons f fs =>
      by_cases hc : (!f && strcmpEq a name) = true
      · simp [options_find_free_argument, hc]
      · simp [options_find_free_argument, hc, ih fs]

/-- A found-mark already true stays true across a filter lookup:
`options_find_free_argument` only ever writes `true` over a `false`
mark, so each mark transitions false to true at most once per scan. -/
theorem find_monotone (args : List (List Nat)) (name : List Nat) :
    ∀ (found : List Bool) (i : Nat), found.getD i false = true →
    (options_find_free_argument args name found).2.getD i false = true := by
  induction args with
  | nil => intro found i h; exact h
  | cons a as ih =>
    intro found i h
    cases found with
    | nil => simp at h
    | cons f fs =>
      by_cases hc : (!f && strcmpEq a name) = true
      · simp only [options_find_free_argument, if_pos hc]
        cases i with
        | zero =>
          rfl
        | succ j => exact h
      · simp only [options_find_free_argument, if_neg hc]
        cases i with
        | zero => exact h
        | succ j => exact ih fs j h

/-- When no free argument compares `strcmp`-equal to the name, the
lookup reports false and leaves the marks untouched. -/
theorem find_none_of_count_zero (args : List (List Nat)) (name : List Nat) :
    ∀ found : List Bool,
    args.countP (fun a => strcmpEq a name) = 0 →
    options_find_free_argument args name found = (false, found) := by
  induction args with
  | nil => intro found _; rfl
  | cons a as ih =>
    intro found hz
    rw [List.countP_cons] at hz
    have ha : strcmpEq a name = false := by
      cases hh : strcmpEq a name
      · rfl
      · simp [hh] at hz
    have hz2 : as.countP (fun x => strcmpEq x name) = 0 := by
      simp [ha] at hz
      exact List.countP_eq_zero.mpr (by simpa using hz)
    cases found with
    | nil => rfl
    | cons f fs =>
      simp [options_find_free_argument, ha, ih fs hz2]

/-- C6 as amended: every found-mark is monotone under
`options_find_free_argument` (a true mark is never cleared, so each
mark transitions false to true at most once over the whole scan); and
provided the requested names contain the looked-up name at most once, a
second lookup of a name whose first lookup succeeded returns false and
leaves the marks unchanged. (With duplicated requested names the second
lookup instead marks the next unmarked duplicate and returns true, as
`c6_counterexample` shows.) -/
theorem c6_first_match_only (args : List (List Nat)) (name : List Nat) :
    ∀ found : List Bool,
    (∀ i : Nat, found.getD i false = true →
      (options_find_free_argument args name found).2.getD i false = true) ∧
    (args.countP (fun a => strcmpEq a name) ≤ 1 →
      (options_find_free_argument args name found).1 = true →
      options_find_free_argument args name
          (options_find_free_argument args name found).2 =
        (false, (options_find_free_argument args name found).2)) := by
  induction args with
  | nil =>
    intro found
    refine ⟨fun i h => h, fun _ habs => ?_⟩
    simp [options_find_free_argument] at habs
  | cons a as ih =>
    intro found
    refine ⟨fun i h => find_monotone (a :: as) name found i h, ?_⟩
    intro hcount hfst
    cases found with
    | nil =>
      simp [options_find_free_argument] at hfst
    | cons f fs =>
      rw [List.countP_cons] at hcount
      cases hsc : strcmpEq a name with
      | true =>
        simp only [hsc, eq_self_iff_true, if_true] at hcount
        have hz : as.countP (fun x => strcmpEq x name) = 0 := by omega
        have hzero := find_none_of_count_zero as name fs hz
        cases hf : f with
        | false =>
          have hc : (!f && strcmpEq a name) = true := by rw [hf, hsc]; rfl
          simp only [options_find_free_argument, if_pos hc]
          have hc2 : (!(true : Bool) && strcmpEq a name) = false := by simp
          simp [options_find_free_argument, hsc, hc2, hzero]
        | true =>
          have hc : (!f && strcmpEq a name) = false := by rw [hf]; simp
          rw [hf] at hfst
          simp only [options_find_free_argument, hc, if_neg] at hfst
          have hc' : (!(true : Bool) && strcmpEq a name) = false := by simp
          simp only [hc', Bool.false_eq_true, if_false] at hfst
          rw [hzero] at hfst
          simp at hfst
      | false =>
        simp only [hsc, Bool.false_eq_true, if_false] at hcount
        have hcnt2 : as.countP (fun x => strcmpEq x name) ≤ 1 := by omega
        have hc3 : (!f && strcmpEq a name) = false := by
          rw [hsc]; simp
        have hstep :
            options_find_free_argument (a :: as) name (f :: fs) =
              ((options_find_free_argument as name fs).1,
                f :: (options_find_free_argument as name fs).2) := by
          simp [options_find_free_argument, hc3]
        rw [hstep] at hfst ⊢
        have hrec := (ih fs).2 hcnt2 hfst
        simp [options_find_free_argument, hc3, hrec]

/-- Witness for C6: with distinct requested names `a, b`, after `a` is
matched once, a second archive entry named `a` is not selected and the
marks stay as they were. -/
theorem c6_witness :
    options_find_free_argument [[97], [98]] [97] [true, false] =
      (false, [true, false]) :=
  (c6_first_match_only [[97], [98]] [97] [false, false]).2 (by decide)
    (by decide)

/-- Characterization of `check_files`: the reported names are exactly
the requested names whose mark is false, in insertion order, and the
code is 2 precisely when some mark is false. -/
theorem check_files_eq (args : List (List Nat)) :
    ∀ found : List Bool,
    check_files args found =
      (((args.zip found).filter (fun p => !p.2)).map Prod.fst,
        if (args.zip found).any (fun p => !p.2) then 2 else 0) := by
  induction args with
  | nil => intro found; simp [check_files]
  | cons a as ih =>
    intro found
    cases found with
    | nil => simp [check_files]
    | cons f fs =>
      cases f with
      | false => simp [check_files, ih fs]
      | true =>
        have hb : (!true || (as.zip fs).any fun p => !p.2) =
            ((as.zip fs).any fun p => !p.2) := by simp
        simp [check_files, ih fs]
        rw [hb]

/-- C7: in list mode with a non-empty FilterSet, after the scan loop
ends the run reports, in the original insertion order, exactly the
requested names whose found-mark is still false, and the overall exit
code is 2 when at least one such name exists and 0 when none does; in
any other mode (extract mode, or an empty FilterSet) no reconciliation
happens: nothing is reported and the loop's own code is the exit code. -/
theorem c7_scan_summary (opts : Options) (openOk : List Nat → Bool)
    (stream : List Nat) :
    ((opts.t = true ∧ opts.freeArgs ≠ []) →
      (runScan opts openOk stream).notFound =
        ((opts.freeArgs.zip (scanOut opts openOk stream).filesFound).filter
          (fun p => !p.2)).map Prod.fst ∧
      ((runScan opts openOk stream).notFound ≠ [] →
        (runScan opts openOk stream).returnCode = 2) ∧
      ((runScan opts openOk stream).notFound = [] →
        (runScan opts openOk stream).returnCode = 0)) ∧
    ((opts.t = false ∨ opts.freeArgs = []) →
      (runScan opts openOk stream).notFound = [] ∧
      (runScan opts openOk stream).returnCode =
        (scanOut opts openOk stream).returnCode) := by
  constructor
  · rintro ⟨ht, hne⟩
    have hgate : (opts.t && !opts.freeArgs.isEmpty) = true := by
      rw [ht]
      simp [List.isEmpty_iff, hne]
    have hrun : runScan opts openOk stream =
        ⟨(check_files opts.freeArgs (scanOut opts openOk stream).filesFound).2,
          (scanOut opts openOk stream).loneZero,
          (scanOut opts openOk stream).listed,
          (scanOut opts openOk stream).extracted,
          (check_files opts.freeArgs
            (scanOut opts openOk stream).filesFound).1⟩ := by
      simp [runScan, hgate]
    have hcf := check_files_eq opts.freeArgs
      (scanOut opts openOk stream).filesFound
    rw [hrun, hcf]
    refine ⟨rfl, ?_, ?_⟩
    · intro hnf
      simp only [ne_eq, List.map_eq_nil_iff, List.filter_eq_nil_iff] at hnf
      push_neg at hnf
      rcases hnf with ⟨p, hp, hb⟩
      have hany : ((opts.freeArgs.zip
          (scanOut opts openOk stream).filesFound).any (fun p => !p.2)) = true :=
        List.any_eq_true.mpr ⟨p, hp, by simpa using hb⟩
      simp [hany]
    · intro hnf
      simp only [List.map_eq_nil_iff, List.filter_eq_nil_iff] at hnf
      have hany : ((opts.freeArgs.zip
          (scanOut opts openOk stream).filesFound).any (fun p => !p.2)) = false :=
        List.any_eq_false.mpr hnf
      simp [hany]
  · intro h
    have hgate : (opts.t && !opts.freeArgs.isEmpty) = false := by
      rcases h with h | h
      · rw [h]; rfl
      · rw [h]; simp
    constructor
    · simp [runScan, hgate]
    · simp [runScan, hgate]


/-- Witness for C7: requesting `a, b` against an archive holding only
`a` reports `b` as not found and exits with failure code 2. -/
theorem c7_witness :
    (runScan optsC7 okAll streamC7).notFound = [[98]] ∧
    (runScan optsC7 okAll streamC7).returnCode = 2 :=
  ⟨by decide,
    ((c7_scan_summary optsC7 okAll streamC7).1 ⟨rfl, by decide⟩).2.1
      (by decide)⟩
